import Mathlib

/-!
Verification development for PlugBotBase, a framework for plug.dj chat bots.

The definitions below are a shallow embedding of the JavaScript sources:

* `src/state_tracker.js` — the room-state tracker (chat history, play history,
  room roster, DJ wait list) and its event handlers;
* `src/translator.js` — the pure translation functions from raw PlugAPI events
  to the internal event model;
* `src/plug.js` (bundled in the sources as the `Bot` prototype) — the outbound
  actions and the event dispatcher.

JavaScript `undefined`/`null` values are modelled with `Option`; statements that
would throw a `TypeError` at runtime (property access on `undefined`/`null`)
are modelled with `Except JsError`. Machine-level details (timers, sockets,
logging output) are abstracted: a handler that logs a warning is modelled as
returning a `Bool` flag alongside its state, and `Date.now()` is passed in as
an explicit `now` argument.
-/

namespace PlugBotBase

/-- A JavaScript runtime error raised by a property access on `undefined` or
`null`. -/
inductive JsError where
  | typeError
  deriving Repr, DecidableEq

/-! ## Chat history (state_tracker.js) -/

/-- An entry of `roomState.chatHistory`. Entries created by `onChat`
(state_tracker.js:154-167) carry no `isDeleted` / `deletedByUserID` /
`deletionTime` properties, i.e. those read back as falsy `undefined`; that is
modelled by the defaults `false` / `none` / `none`. -/
structure ChatEntry where
  chatID : Nat
  userID : Nat
  isDeleted : Bool := false
  deletedByUserID : Option Nat := none
  deletionTime : Option Nat := none
  deriving Repr, DecidableEq

/-- The translated `chatDelete` event (translator.js:121-126). -/
structure ChatDeleteEvent where
  chatID : Nat
  modUserID : Nat
  deriving Repr, DecidableEq

/-- The three assignments performed on a chat entry being soft-deleted
(state_tracker.js:176-178 and 192-194). `now` is the `Date.now()` captured
once at the top of the handler. -/
def markDeleted (modUserID now : Nat) (c : ChatEntry) : ChatEntry :=
  { c with isDeleted := true, deletedByUserID := some modUserID, deletionTime := some now }

/-- The loop condition of the cascade loop (state_tracker.js:191):
`chatObj.userID === deletedMessageUserID && !chatObj.isDeleted`. -/
def sameUserNotDeleted (uid : Nat) (c : ChatEntry) : Bool :=
  c.userID == uid && !c.isDeleted

/-- The cascade loop of `onChatDelete` (state_tracker.js:189-199): starting
just past the matched entry, each subsequent entry from the same user that is
not already deleted is marked deleted; the loop `break`s at the first entry
that fails the condition. -/
def cascadeDelete (uid modUserID now : Nat) : List ChatEntry → List ChatEntry
  | [] => []
  | c :: rest =>
    if sameUserNotDeleted uid c then
      markDeleted modUserID now c :: cascadeDelete uid modUserID now rest
    else
      c :: rest

/-- `onChatDelete` (state_tracker.js:169-201): the first loop scans for the
first entry whose `chatID` matches the event and marks it deleted; the second
loop then cascades from the following index. When no entry matches
(`deletedMessageIndex` stays `-1`) the history is left unchanged. -/
def onChatDelete (ev : ChatDeleteEvent) (now : Nat) : List ChatEntry → List ChatEntry
  | [] => []
  | c :: rest =>
    if c.chatID == ev.chatID then
      markDeleted ev.modUserID now c :: cascadeDelete c.userID ev.modUserID now rest
    else
      c :: onChatDelete ev now rest

/-- Modelled from the spec: the cascade as the specification sentence reads —
"deleting chatID X also soft-deletes every subsequent, currently-non-deleted
entry from the same userID, stopping at the first entry from a different
user". Under this wording an already-deleted same-user entry is skipped (it is
not "currently-non-deleted") but does not stop the scan; only an entry from a
different user stops it. This definition exists solely to be compared with
`cascadeDelete` above. -/
def specCascadeDelete (uid modUserID now : Nat) : List ChatEntry → List ChatEntry
  | [] => []
  | c :: rest =>
    if c.userID == uid then
      (if c.isDeleted then c else markDeleted modUserID now c)
        :: specCascadeDelete uid modUserID now rest
    else
      c :: rest

/-- Modelled from the spec: `onChatDelete` as the claim describes it, using
`specCascadeDelete` for the cascade. -/
def specOnChatDelete (ev : ChatDeleteEvent) (now : Nat) : List ChatEntry → List ChatEntry
  | [] => []
  | c :: rest =>
    if c.chatID == ev.chatID then
      markDeleted ev.modUserID now c :: specCascadeDelete c.userID ev.modUserID now rest
    else
      c :: specOnChatDelete ev now rest

/-! ## Votes (state_tracker.js) -/

/-- The translated `vote` event (translator.js:361-366): `vote` is `1` for a
woot and `-1` for a meh. -/
structure VoteEvent where
  userID : Nat
  vote : Int
  deriving Repr, DecidableEq

/-- The `votes` sub-object of a play entry (state_tracker.js:144-148): three
arrays of user IDs. -/
structure Votes where
  grabs : List Nat
  mehs : List Nat
  woots : List Nat
  deriving Repr, DecidableEq

/-- The fresh vote object created by `onAdvance` (state_tracker.js:144-148). -/
def emptyVotes : Votes := ⟨[], [], []⟩

/-- The `indexOf`-guarded `splice(indexOf(x), 1)` idiom used in `onVote`
(state_tracker.js:250-256): remove the first occurrence of `uid` if present.
`List.erase` removes exactly the first occurrence. -/
def spliceOut (uid : Nat) (l : List Nat) : List Nat :=
  if uid ∈ l then l.erase uid else l

/-- `onVote` (state_tracker.js:243-264) acting on the current song's votes:
the user is removed from both `woots` and `mehs`, then appended to the set
matching the vote value. -/
def onVote (ev : VoteEvent) (v : Votes) : Votes :=
  let woots := spliceOut ev.userID v.woots
  let mehs := spliceOut ev.userID v.mehs
  if ev.vote = 1 then
    { v with woots := woots ++ [ev.userID], mehs := mehs }
  else if ev.vote = -1 then
    { v with woots := woots, mehs := mehs ++ [ev.userID] }
  else
    { v with woots := woots, mehs := mehs }

/-- Apply a sequence of vote events in order. -/
def applyVotes (evs : List VoteEvent) (v : Votes) : Votes :=
  evs.foldl (fun acc e => onVote e acc) v

/-- The vote sets are duplicate-free and no user sits in both `woots` and
`mehs`. -/
def VotesMutuallyExclusive (v : Votes) : Prop :=
  v.woots.Nodup ∧ v.mehs.Nodup ∧ ∀ u : Nat, ¬(u ∈ v.woots ∧ u ∈ v.mehs)

/-! ## Users and room state (state_tracker.js) -/

/-- A user record as stored in `usersInRoom` / `usersInWaitList`. Only the
fields the state tracker inspects are kept (`userID` for the identity scans,
`username` for the `modRemoveDJ` lookup). -/
structure User where
  userID : Nat
  username : String
  deriving Repr, DecidableEq

/-- A translated media object (translator.js:38-50). -/
structure Media where
  author : String
  contentID : String
  durationInSeconds : Nat
  fullTitle : String
  title : String
  deriving Repr, DecidableEq

/-- An entry of `roomState.playHistory`. `votes` is `null` (`none`) for
entries recovered from the bulk history query (state_tracker.js:89) and a
populated object for entries created by `onAdvance`. -/
structure PlayEntry where
  media : Option Media
  startDate : Nat
  user : User
  votes : Option Votes
  deriving Repr, DecidableEq

/-- The room state aggregate created by `init` (state_tracker.js:27-32). -/
structure RoomState where
  chatHistory : List ChatEntry := []
  playHistory : List PlayEntry := []
  usersInRoom : List User := []
  usersInWaitList : List User := []
  deriving Repr, DecidableEq

/-- `_findUser` (state_tracker.js:278-281): linear scan returning the first
user with the given `userID`, or `null`. -/
def _findUser (users : List User) (userID : Nat) : Option User :=
  users.find? (fun u => u.userID == userID)

/-- `_removeUser` (state_tracker.js:283-289): `splice` out the first user
with the given `userID`, if any. -/
def _removeUser (userID : Nat) : List User → List User
  | [] => []
  | u :: rest => if u.userID == userID then rest else u :: _removeUser userID rest

/-- `onUserJoin` (state_tracker.js:231-241). The returned `Bool` is `true`
exactly when the handler took the warning branch (`LOG.warn` + `return`)
because the user was already recorded; in that branch the state is returned
untouched. Otherwise the joining user is pushed onto `usersInRoom`. -/
def onUserJoin (ev : User) (rs : RoomState) : RoomState × Bool :=
  match _findUser rs.usersInRoom ev.userID with
  | some _ => (rs, true)
  | none => ({ rs with usersInRoom := rs.usersInRoom ++ [ev] }, false)

/-- The global object threaded through every handler. `init`
(state_tracker.js:27) assigns `globalObject.roomState`; no code in the
repository ever assigns `globalObject.state`, so that property is `undefined`
(`none`) throughout. -/
structure GlobalObject where
  roomState : RoomState
  state : Option RoomState
  deriving Repr, DecidableEq

/-- The global object as `init` leaves it: `roomState` populated,
`state` never assigned. -/
def initGlobalObject (rs : RoomState) : GlobalObject :=
  { roomState := rs, state := none }

/-- The username scan-and-splice of `onModerateRemoveDj`
(state_tracker.js:217-223): remove the first wait-list user whose `username`
matches. -/
def removeFirstByUsername (username : String) : List User → List User
  | [] => []
  | u :: rest => if u.username == username then rest else u :: removeFirstByUsername username rest

/-- `onModerateRemoveDj` (state_tracker.js:215-224). The handler reads
`globalObject.state.usersInWaitList`; when the `state` property is `undefined`
that access throws a `TypeError` before any mutation happens. -/
def onModerateRemoveDj (username : String) (g : GlobalObject) : Except JsError GlobalObject :=
  match g.state with
  | none => .error .typeError
  | some s =>
      .ok { g with
            state := some { s with
              usersInWaitList := removeFirstByUsername username s.usersInWaitList } }

/-! ## Play history handlers (state_tracker.js) -/

/-- The play-history effect of `onAdvance` (state_tracker.js:140-151): a new
play entry with fresh empty vote sets is unshifted onto `playHistory`. -/
def onAdvancePlay (media : Option Media) (startDate : Nat) (user : User)
    (playHistory : List PlayEntry) : List PlayEntry :=
  { media := media, startDate := startDate, user := user, votes := some emptyVotes }
    :: playHistory

/-- `onGrab` (state_tracker.js:207-213): reads
`playHistory[0].votes.grabs` with no guard. With an empty history,
`playHistory[0]` is `undefined` and `.votes` throws; with `votes: null`,
`.grabs` throws. Otherwise the user ID is pushed onto `grabs` unless already
present. -/
def onGrab (userID : Nat) : List PlayEntry → Except JsError (List PlayEntry)
  | [] => .error .typeError
  | p :: rest =>
    match p.votes with
    | none => .error .typeError
    | some v =>
        let grabs := if userID ∈ v.grabs then v.grabs else v.grabs ++ [userID]
        .ok ({ p with votes := some { v with grabs := grabs } } :: rest)

/-- `onVote` as the full handler (state_tracker.js:243-264): the same
unguarded `playHistory[0].votes` access, then the vote reassignment of
`onVote` on the current song's vote sets. -/
def onVotePlay (ev : VoteEvent) : List PlayEntry → Except JsError (List PlayEntry)
  | [] => .error .typeError
  | p :: rest =>
    match p.votes with
    | none => .error .typeError
    | some v => .ok ({ p with votes := some (onVote ev v) } :: rest)

/-! ## Wait-list dynamics (state_tracker.js) -/

/-- A JavaScript array cell of the wait list: `populateUsers`
(state_tracker.js:72) pushes `currentDj` unconditionally, and
`translateUserObject(null)` is `null`, so a cell can hold `null` (`none`). -/
abbrev WaitListCell := Option User

/-- The value stored in `roomState.usersInWaitList`. It starts as an array of
user objects, but `onDjListUpdate` (state_tracker.js:203-205) assigns the
translated event object `{ userIDs: [...] }` wholesale, after which the field
no longer holds an array of users at all. -/
inductive WaitListVal where
  | users (entries : List WaitListCell)
  | updateObject (userIDs : List Nat)
  deriving Repr, DecidableEq

/-- The wait list as `populateUsers` builds it (state_tracker.js:72-77):
the current DJ (possibly `null`) pushed first, then the upstream wait-list
snapshot in order. -/
def startupWaitList (currentDj : Option User) (waitList : List User) : WaitListVal :=
  .users (currentDj :: waitList.map some)

/-- How many entries of the wait-list value are user objects carrying the
given `userID`. The `updateObject` shape stores bare IDs, not user records,
so it contributes no user entries. -/
def countId (w : WaitListVal) (uid : Nat) : Nat :=
  match w with
  | .users l => l.countP (fun e => match e with | some u => u.userID == uid | none => false)
  | .updateObject _ => 0

/-- Each userID appears at most once among the user entries of the wait
list. -/
def UniqueIds (w : WaitListVal) : Prop := ∀ uid : Nat, countId w uid ≤ 1

/-- Duplicate-freedom of a candidate entry list. -/
def CellsUnique (l : List WaitListCell) : Prop :=
  ∀ uid : Nat, l.countP (fun e => match e with | some u => u.userID == uid | none => false) ≤ 1

/-- The wait-list-affecting events of the claim. The `advance` event carries
the translated `waitlistedDJs` array (translator.js:92-97), whose cells are
`translateUserObject` results and hence possibly `null`; `djListUpdate`
carries the raw ID array. -/
inductive WaitListEvent where
  | advance (waitlistedDJs : List WaitListCell)
  | djListUpdate (userIDs : List Nat)
  | modRemoveDJ (username : String)
  | userLeave (userID : Nat)
  deriving Repr, DecidableEq

/-- `_removeUser` specialised to the live wait-list array
(state_tracker.js:266-289): `_findUserIndex` reads `user.userID` on each cell
in turn, so a `null` cell reached before the first match throws a
`TypeError`; a match found earlier short-circuits the scan. -/
def removeUserCell (userID : Nat) : List WaitListCell → Except JsError (List WaitListCell)
  | [] => .ok []
  | none :: _ => .error .typeError
  | some u :: rest =>
    if u.userID == userID then .ok rest
    else (removeUserCell userID rest).map (some u :: ·)

/-- One step of the wait-list state machine:
* `advance` (state_tracker.js:137) replaces the wait list wholesale with the
  event's `waitlistedDJs`;
* `djListUpdate` (state_tracker.js:203-205) assigns the translated
  `{ userIDs: [...] }` object wholesale;
* `modRemoveDJ` (state_tracker.js:215-224) reads the never-assigned
  `globalObject.state` and throws before touching the wait list;
* `userLeave` (state_tracker.js:226-229) removes the first matching user via
  `_removeUser`; on the `updateObject` shape `users.length` is `undefined`,
  the `for` loop body never runs, and the call is a silent no-op. -/
def stepWaitList : WaitListEvent → WaitListVal → Except JsError WaitListVal
  | .advance djs, _ => .ok (.users djs)
  | .djListUpdate ids, _ => .ok (.updateObject ids)
  | .modRemoveDJ _, _ => .error .typeError
  | .userLeave uid, .users l => (removeUserCell uid l).map .users
  | .userLeave _, .updateObject ids => .ok (.updateObject ids)

/-! ## Translator (translator.js) -/

/-- The internal role enum (types.js:62-69). -/
inductive UserRole where
  | NONE
  | RESIDENT_DJ
  | BOUNCER
  | MANAGER
  | COHOST
  | HOST
  deriving Repr, DecidableEq

/-- The numeric rank carried by each role object (types.js:62-69). -/
def UserRole.level : UserRole → Nat
  | .NONE => 0
  | .RESIDENT_DJ => 1
  | .BOUNCER => 2
  | .MANAGER => 3
  | .COHOST => 4
  | .HOST => 5

/-- `translateRole` (translator.js:374-392): role integers 0-5 map onto the
enum; any other value logs an error and falls back to `NONE`. -/
def translateRole (roleAsInt : Int) : UserRole :=
  if roleAsInt = 0 then .NONE
  else if roleAsInt = 1 then .RESIDENT_DJ
  else if roleAsInt = 2 then .BOUNCER
  else if roleAsInt = 3 then .MANAGER
  else if roleAsInt = 4 then .COHOST
  else if roleAsInt = 5 then .HOST
  else .NONE

/-- `translateDateString` (translator.js:24-36). `dateParse` abstracts the
JavaScript `Date.parse` engine. A string whose length is not exactly 26 logs
an error and falls through the function body with no `return` value, i.e.
yields `undefined` (`none`); otherwise the string is suffixed with `" UTC"`
and handed to `Date.parse`. -/
def translateDateString (dateParse : String → Int) (s : String) : Option Int :=
  if s.length ≠ 26 then none
  else some (dateParse (s ++ " UTC"))

/-- A raw PlugAPI media object, with the terse upstream field names. -/
structure RawMedia where
  author : String
  cid : String
  duration : Nat
  title : String
  deriving Repr, DecidableEq

/-- `_repairTitle` (translator.js:14-16): `(author ? author + " - " : "") +
title`, where a missing author is the falsy empty string. -/
def _repairTitle (author title : String) : String :=
  (if author ≠ "" then author ++ " - " else "") ++ title

/-- `translateMediaObject` (translator.js:38-50): `null` passes through,
otherwise the terse fields are renamed and `fullTitle` derived. -/
def translateMediaObject (media : Option RawMedia) : Option Media :=
  match media with
  | none => none
  | some m =>
      some { author := m.author
             contentID := m.cid
             durationInSeconds := m.duration
             fullTitle := _repairTitle m.author m.title
             title := m.title }

/-- A raw PlugAPI user/DJ object. -/
structure RawUser where
  avatarID : String
  joined : String
  level : Nat
  role : Int
  id : Nat
  username : String
  deriving Repr, DecidableEq

/-- The translated user object (translator.js:66-79). -/
structure TranslatedUser where
  avatarID : String
  joinDate : Option Int
  level : Nat
  role : UserRole
  userID : Nat
  username : String
  deriving Repr, DecidableEq

/-- `translateUserObject` (translator.js:66-79): `null` passes through,
otherwise the fields are renamed and `joined` / `role` translated. -/
def translateUserObject (dateParse : String → Int) (u : Option RawUser) : Option TranslatedUser :=
  match u with
  | none => none
  | some dj =>
      some { avatarID := dj.avatarID
             joinDate := translateDateString dateParse dj.joined
             level := dj.level
             role := translateRole dj.role
             userID := dj.id
             username := dj.username }

/-- A raw PlugAPI score object. -/
structure RawScore where
  grabs : Nat
  listeners : Nat
  negative : Nat
  positive : Nat
  skipped : Nat
  deriving Repr, DecidableEq

/-- The translated score object (translator.js:52-64). -/
structure Score where
  grabs : Nat
  listeners : Nat
  mehs : Nat
  woots : Nat
  wasSkipped : Bool
  deriving Repr, DecidableEq

/-- `translateScoreObject` (translator.js:52-64). -/
def translateScoreObject (score : Option RawScore) : Option Score :=
  match score with
  | none => none
  | some s =>
      some { grabs := s.grabs
             listeners := s.listeners
             mehs := s.negative
             woots := s.positive
             wasSkipped := s.skipped > 0 }

/-- The `lastPlay` sub-object of a raw advance event. -/
structure RawLastPlay where
  dj : Option RawUser
  media : Option RawMedia
  score : Option RawScore
  deriving Repr, DecidableEq

/-- A raw PlugAPI advance event (the shape read by
`translateAdvanceEvent`). -/
structure RawAdvanceEvent where
  currentDJ : Option RawUser
  media : Option RawMedia
  startTime : String
  djs : List (Option RawUser)
  lastPlay : Option RawLastPlay
  deriving Repr, DecidableEq

/-- The translated `previousPlay` sub-object (translator.js:100-104). -/
structure PreviousPlay where
  dj : Option TranslatedUser
  media : Option Media
  score : Option Score
  deriving Repr, DecidableEq

/-- The translated advance event (translator.js:86-107). -/
structure AdvanceEvent where
  incomingDJ : Option TranslatedUser
  media : Option Media
  startDate : Option Int
  waitlistedDJs : List (Option TranslatedUser)
  previousPlay : Option PreviousPlay
  deriving Repr, DecidableEq

/-- `translateAdvanceEvent` (translator.js:81-108): `null` is returned when
the current performer or the media sub-object is absent; otherwise the event
is rebuilt field by field, the wait list translated cell-wise, and
`previousPlay` attached only when `lastPlay` and all three of its sub-objects
are present. -/
def translateAdvanceEvent (dateParse : String → Int) (event : RawAdvanceEvent) :
    Option AdvanceEvent :=
  match event.currentDJ, event.media with
  | some _, some _ =>
      let previousPlay :=
        match event.lastPlay with
        | some lp =>
            match lp.dj, lp.media, lp.score with
            | some _, some _, some _ =>
                some { dj := translateUserObject dateParse lp.dj
                       media := translateMediaObject lp.media
                       score := translateScoreObject lp.score }
            | _, _, _ => none
        | none => none
      some { incomingDJ := translateUserObject dateParse event.currentDJ
             media := translateMediaObject event.media
             startDate := translateDateString dateParse event.startTime
             waitlistedDJs := event.djs.map (translateUserObject dateParse)
             previousPlay := previousPlay }
  | _, _ => none

/-! ## Event dispatcher (plug.js: `_createEventDispatcher`) -/

/-- `_createEventDispatcher` (plug.js): the returned closure translates the
raw event; when the translator yields a falsy result it returns at once,
otherwise it invokes every registered handler in registration order, threading
the shared global state. The second component counts the handler invocations
performed for this event occurrence. -/
def _createEventDispatcher {Raw Ev St : Type} (translate : Raw → Option Ev)
    (handlers : List (Ev → St → St)) (raw : Raw) (st : St) : St × Nat :=
  match translate raw with
  | none => (st, 0)
  | some e => handlers.foldl (fun acc h => (h e acc.1, acc.2 + 1)) (st, 0)

/-! ## Outbound actions (plug.js: `Bot.prototype` methods)

Each action hands the underlying PlugAPI method an inner closure and receives
a synchronous boolean saying whether the request was queued. Whether PlugAPI
ever invokes the inner closure is upstream behaviour, abstracted here as
`ackFires` (when the request was not even queued, the closure is never
invoked, so these models are evaluated with `ackFires = false` in that case).
Each model returns the list of invocations of the caller-supplied callback,
in order; an invocation's payload is `some b` when the bot code passes the
literal boolean `b`, and `none` when it forwards upstream arguments
verbatim. -/

set_option linter.unusedVariables false in
/-- `Bot.prototype.banUser`: the inner closure forwards the upstream
arguments to the callback when it fires; the `if (!wasRequestSent)` branch is
an empty `// TODO call callback` block and performs no invocation (which is
why `wasRequestSent` does not occur in the body). -/
def banUser (wasRequestSent ackFires hasCallback : Bool) : List (Option Bool) :=
  if ackFires && hasCallback then [none] else []

/-- `Bot.prototype.forceSkip`: the inner closure calls `callback(true)`; if
queuing failed and a callback was supplied, `callback(false)` is called
synchronously. -/
def forceSkip (wasSkipQueued ackFires : Bool) (hasCallback : Bool) : List (Option Bool) :=
  (if ackFires && hasCallback then [some true] else []) ++
  (if !wasSkipQueued && hasCallback then [some false] else [])

/-- `Bot.prototype.grabSong`: same shape as `forceSkip`. -/
def grabSong (wasGrabQueued ackFires : Bool) (hasCallback : Bool) : List (Option Bool) :=
  (if ackFires && hasCallback then [some true] else []) ++
  (if !wasGrabQueued && hasCallback then [some false] else [])

/-- `Bot.prototype.joinWaitList`: same shape as `forceSkip`. -/
def joinWaitList (wasJoinQueued ackFires : Bool) (hasCallback : Bool) : List (Option Bool) :=
  (if ackFires && hasCallback then [some true] else []) ++
  (if !wasJoinQueued && hasCallback then [some false] else [])

/-- `Bot.prototype.leaveWaitList`: same shape as `forceSkip`. -/
def leaveWaitList (wasLeaveQueued ackFires : Bool) (hasCallback : Bool) : List (Option Bool) :=
  (if ackFires && hasCallback then [some true] else []) ++
  (if !wasLeaveQueued && hasCallback then [some false] else [])

/-- `Bot.prototype.mehSong`: same shape as `forceSkip`. -/
def mehSong (wasMehQueued ackFires : Bool) (hasCallback : Bool) : List (Option Bool) :=
  (if ackFires && hasCallback then [some true] else []) ++
  (if !wasMehQueued && hasCallback then [some false] else [])

/-- `Bot.prototype.wootSong`: same shape as `forceSkip`. -/
def wootSong (wasWootQueued ackFires : Bool) (hasCallback : Bool) : List (Option Bool) :=
  (if ackFires && hasCallback then [some true] else []) ++
  (if !wasWootQueued && hasCallback then [some false] else [])

/-! ## Command router (main.js: `_createCommandHandler`) -/

/-- A registered command module as `_registerCommands` collects it: its
trigger keywords, the optional `minimumRole` export, and whether an
`insufficientPermissionsHandler` export is present. The handler functions
themselves are tracked by registration index in `CommandInvocation`. -/
structure Command where
  triggers : List String
  minimumRole : Option UserRole
  hasInsufficientPermissionsHandler : Bool
  deriving Repr, DecidableEq

/-- One callback invocation performed by the command handler, identified by
the registration index of the command it belongs to. -/
inductive CommandInvocation where
  | handler (i : Nat)
  | insufficientPermissions (i : Nat)
  deriving Repr, DecidableEq

/-- The registration index an invocation refers to. -/
def CommandInvocation.index : CommandInvocation → Nat
  | .handler i => i
  | .insufficientPermissions i => i

/-- The translated command event, reduced to the two fields the router
consults (main.js: `commandEvent.command`, `commandEvent.userRole.level`). -/
structure CommandEvent where
  command : String
  userRole : UserRole
  deriving Repr, DecidableEq

/-- The `for` loop of `_createCommandHandler` (main.js), with `i` the current
registration index: every command whose `triggers` contain the keyword is
considered; if `command.minimumRole` is present and the user's role level is
below it, the optional insufficient-permissions callback is invoked and the
loop `continue`s; otherwise the command's handler is invoked. The loop never
`break`s, so all registered commands are scanned. -/
def runCommands (commandName : String) (userRole : UserRole) :
    Nat → List Command → List CommandInvocation
  | _, [] => []
  | i, cmd :: rest =>
    if commandName ∈ cmd.triggers then
      match cmd.minimumRole with
      | some minRole =>
          if userRole.level < minRole.level then
            (if cmd.hasInsufficientPermissionsHandler
             then [.insufficientPermissions i] else [])
              ++ runCommands commandName userRole (i + 1) rest
          else
            .handler i :: runCommands commandName userRole (i + 1) rest
      | none => .handler i :: runCommands commandName userRole (i + 1) rest
    else
      runCommands commandName userRole (i + 1) rest

/-- `_createCommandHandler` (main.js): the keyword is lower-cased unless
commands are configured case-sensitive, then the registered command list is
scanned in order. -/
def _createCommandHandler (areCommandsCaseSensitive : Bool) (commands : List Command)
    (ev : CommandEvent) : List CommandInvocation :=
  let commandName := if !areCommandsCaseSensitive then ev.command.toLower else ev.command
  runCommands commandName ev.userRole 0 commands

/-- A command matches when the (normalised) keyword is among its triggers. -/
def cmdMatches (commandName : String) (cmd : Command) : Bool :=
  commandName ∈ cmd.triggers

/-- A user is permitted to run a command when it declares no minimum role or
the user's role level reaches the declared minimum. -/
def rolePermits (userRole : UserRole) (cmd : Command) : Bool :=
  match cmd.minimumRole with
  | none => true
  | some minRole => !(userRole.level < minRole.level)

/-- The outcome of one loop iteration of the command handler for the command
at registration index `ic.1`: the declarative per-command counterpart of the
loop body of `runCommands`, used to characterize the whole loop as a
`filterMap` over the indexed command list. -/
def commandOutcome (commandName : String) (userRole : UserRole) (ic : Nat × Command) :
    Option CommandInvocation :=
  if commandName ∈ ic.2.triggers then
    match ic.2.minimumRole with
    | some minRole =>
        if userRole.level < minRole.level then
          if ic.2.hasInsufficientPermissionsHandler then
            some (.insufficientPermissions ic.1)
          else none
        else some (.handler ic.1)
    | none => some (.handler ic.1)
  else none

/-! ## Lemmas about the vote handler -/

theorem spliceOut_eq_erase (uid : Nat) (l : List Nat) : spliceOut uid l = l.erase uid := by
  unfold spliceOut
  split
  · rfl
  · exact (List.erase_of_not_mem (by assumption)).symm

theorem nodup_spliceOut {uid : Nat} {l : List Nat} (h : l.Nodup) : (spliceOut uid l).Nodup := by
  rw [spliceOut_eq_erase]
  exact h.erase uid

theorem not_mem_spliceOut {uid : Nat} {l : List Nat} (h : l.Nodup) : uid ∉ spliceOut uid l := by
  rw [spliceOut_eq_erase]
  intro hmem
  exact ((h.mem_erase_iff).mp hmem).1 rfl

theorem mem_of_mem_spliceOut {x uid : Nat} {l : List Nat} (h : x ∈ spliceOut uid l) : x ∈ l := by
  rw [spliceOut_eq_erase] at h
  exact List.mem_of_mem_erase h

theorem nodup_append_singleton {uid : Nat} {l : List Nat} (h : l.Nodup) (huid : uid ∉ l) :
    (l ++ [uid]).Nodup := by
  rw [List.nodup_append]
  exact ⟨h, List.nodup_singleton uid, by
    intro a ha hb
    rw [List.mem_singleton] at hb
    exact huid (hb ▸ ha)⟩

theorem onVote_preserves_exclusive (ev : VoteEvent) (v : Votes)
    (h : VotesMutuallyExclusive v) : VotesMutuallyExclusive (onVote ev v) := by
  obtain ⟨hw, hm, hx⟩ := h
  unfold onVote VotesMutuallyExclusive
  split
  · refine ⟨nodup_append_singleton (nodup_spliceOut hw) (not_mem_spliceOut hw),
      nodup_spliceOut hm, ?_⟩
    intro u ⟨hu1, hu2⟩
    rcases List.mem_append.mp hu1 with huw | huw
    · exact hx u ⟨mem_of_mem_spliceOut huw, mem_of_mem_spliceOut hu2⟩
    · rw [List.mem_singleton] at huw
      exact not_mem_spliceOut hm (huw ▸ hu2)
  split
  · refine ⟨nodup_spliceOut hw,
      nodup_append_singleton (nodup_spliceOut hm) (not_mem_spliceOut hm), ?_⟩
    intro u ⟨hu1, hu2⟩
    rcases List.mem_append.mp hu2 with hum | hum
    · exact hx u ⟨mem_of_mem_spliceOut hu1, mem_of_mem_spliceOut hum⟩
    · rw [List.mem_singleton] at hum
      exact not_mem_spliceOut hw (hum ▸ hu1)
  · refine ⟨nodup_spliceOut hw, nodup_spliceOut hm, ?_⟩
    intro u ⟨hu1, hu2⟩
    exact hx u ⟨mem_of_mem_spliceOut hu1, mem_of_mem_spliceOut hu2⟩

theorem applyVotes_preserves_exclusive (evs : List VoteEvent) :
    ∀ v : Votes, VotesMutuallyExclusive v → VotesMutuallyExclusive (applyVotes evs v) := by
  induction evs with
  | nil => exact fun v h => h
  | cons e rest ih =>
      intro v h
      exact ih (onVote e v) (onVote_preserves_exclusive e v h)

/-- C2: starting from the freshly initialized vote sets, after any sequence of
vote events the `woots` and `mehs` sets are duplicate-free and mutually
exclusive (every prefix of a sequence being itself a sequence, this holds
after each event); in particular a user voting woot, then meh, then woot ends
up in `woots` only, with `mehs` empty. -/
theorem vote_handler_mutual_exclusion :
    (∀ evs : List VoteEvent, VotesMutuallyExclusive (applyVotes evs emptyVotes))
    ∧ ∀ u : Nat,
        (applyVotes [⟨u, 1⟩, ⟨u, -1⟩, ⟨u, 1⟩] emptyVotes).woots = [u]
        ∧ (applyVotes [⟨u, 1⟩, ⟨u, -1⟩, ⟨u, 1⟩] emptyVotes).mehs = [] := by
  constructor
  · intro evs
    refine applyVotes_preserves_exclusive evs emptyVotes ?_
    exact ⟨List.nodup_nil, List.nodup_nil, fun u ⟨h, _⟩ => (List.not_mem_nil u) h⟩
  · intro u
    simp [applyVotes, onVote, spliceOut, emptyVotes]

/-! ## The date-string translator -/

/-- C9: a 26-character date string is suffixed with `" UTC"` and handed to the
date parser, and its timestamp is returned; a string of any other length
yields the `undefined` sentinel (`none`) instead of a timestamp, and no
exception is raised (the function is total). -/
theorem translateDateString_length_dispatch (dateParse : String → Int) (s : String) :
    (s.length = 26 → translateDateString dateParse s = some (dateParse (s ++ " UTC")))
    ∧ (s.length ≠ 26 → translateDateString dateParse s = none) := by
  constructor <;> intro h <;> simp [translateDateString, h]

/-- Evaluation of `translateDateString_length_dispatch` at a well-formed
26-character date string and at a malformed string. -/
theorem translateDateString_length_dispatch_witness :
    translateDateString (fun _ => 0) "2015-11-14 12:34:56.123456" = some 0
    ∧ translateDateString (fun _ => 0) "2015-11-14" = none :=
  ⟨(translateDateString_length_dispatch (fun _ => 0) "2015-11-14 12:34:56.123456").1 (by decide),
   (translateDateString_length_dispatch (fun _ => 0) "2015-11-14").2 (by decide)⟩

/-! ## Outbound-action callbacks -/

/-- C4: evaluation of the seven callback-accepting outbound actions on the
queue-failure path (queue attempt returned `false`, upstream therefore never
fires the inner closure, a callback was supplied). The six actions other than
`banUser` invoke the callback exactly once with the failure indicator
`false`; `banUser` performs zero invocations — its failure branch is an empty
`TODO` block — so a supplied callback is invoked zero times, contradicting
the documented contract. -/
theorem banUser_queue_failure_drops_callback :
    banUser false false true = []
    ∧ forceSkip false false true = [some false]
    ∧ grabSong false false true = [some false]
    ∧ joinWaitList false false true = [some false]
    ∧ leaveWaitList false false true = [some false]
    ∧ mehSong false false true = [some false]
    ∧ wootSong false false true = [some false] := by
  decide

/-! ## The `modRemoveDJ` handler -/

/-- C3: every `modRemoveDJ` event delivered against the global object as
`init` builds it (where `globalObject.state` was never assigned) makes the
handler throw a `TypeError` — it reads `globalObject.state.usersInWaitList`
while every other handler uses `globalObject.roomState` — instead of
removing the named user from the wait list or no-opping. -/
theorem modRemoveDj_throws_on_tracked_state (username : String) (rs : RoomState) :
    onModerateRemoveDj username (initGlobalObject rs) = .error .typeError := rfl

/-! ## The unguarded `playHistory[0].votes` accesses -/

/-- C10: the grab and vote handlers read `playHistory[0].votes` with no
guard. Under the precondition that the play history is non-empty and the
current entry's `votes` is non-null, both handlers complete without error;
an entry freshly created by `onAdvance` always satisfies the precondition;
and without the precondition the `TypeError` branch is reachable, both on an
empty history and on a head entry with `votes: null`. -/
theorem playHistory_head_votes_guard (uid : Nat) (ev : VoteEvent) (p : PlayEntry)
    (rest ph : List PlayEntry) (m : Option Media) (s : Nat) (u : User) (v : Votes)
    (hv : p.votes = some v) :
    (∃ l, onGrab uid (p :: rest) = .ok l)
    ∧ (∃ l, onVotePlay ev (p :: rest) = .ok l)
    ∧ (∃ l, onGrab uid (onAdvancePlay m s u ph) = .ok l)
    ∧ onGrab uid ([] : List PlayEntry) = .error .typeError
    ∧ onVotePlay ev ([] : List PlayEntry) = .error .typeError
    ∧ (∀ q : PlayEntry, q.votes = none → ∀ r, onGrab uid (q :: r) = .error .typeError) := by
  refine ⟨⟨{ p with votes := some { v with
        grabs := if uid ∈ v.grabs then v.grabs else v.grabs ++ [uid] } } :: rest, ?_⟩,
      ⟨{ p with votes := some (onVote ev v) } :: rest, ?_⟩,
      ⟨{ media := m, startDate := s, user := u, votes := some { emptyVotes with
        grabs := if uid ∈ emptyVotes.grabs then emptyVotes.grabs
                 else emptyVotes.grabs ++ [uid] } } :: ph, ?_⟩,
      rfl, rfl, ?_⟩
  · simp only [onGrab, hv]
  · simp only [onVotePlay, hv]
  · simp only [onGrab, onAdvancePlay]
  · intro q hq r
    simp [onGrab, hq]

/-- Evaluation of `playHistory_head_votes_guard` at a concrete play entry
with initialized vote sets. -/
theorem playHistory_head_votes_guard_witness :
    (∃ l, onGrab 3 [⟨none, 0, ⟨1, "a"⟩, some emptyVotes⟩] = .ok l)
    ∧ onGrab 3 ([] : List PlayEntry) = .error .typeError :=
  ⟨(playHistory_head_votes_guard 3 ⟨3, 1⟩ ⟨none, 0, ⟨1, "a"⟩, some emptyVotes⟩ [] []
      none 0 ⟨1, "a"⟩ emptyVotes rfl).1,
   (playHistory_head_votes_guard 3 ⟨3, 1⟩ ⟨none, 0, ⟨1, "a"⟩, some emptyVotes⟩ [] []
      none 0 ⟨1, "a"⟩ emptyVotes rfl).2.2.2.1⟩

/-! ## The `userJoin` handler -/

/-- C5: starting from a room state whose roster honours the data-model
invariant (at most one entry per userID), processing two `userJoin` events
carrying the same userID leaves exactly one roster entry with that userID;
the second event takes the warning branch (`true` flag) and returns the room
state untouched — the roster is neither extended nor overwritten. -/
theorem userJoin_duplicate_ignored (rs : RoomState) (u1 u2 : User)
    (hid : u2.userID = u1.userID)
    (hcount : rs.usersInRoom.countP (fun c => c.userID == u1.userID) ≤ 1) :
    (onUserJoin u2 (onUserJoin u1 rs).1).1 = (onUserJoin u1 rs).1
    ∧ (onUserJoin u2 (onUserJoin u1 rs).1).2 = true
    ∧ ((onUserJoin u1 rs).1).usersInRoom.countP (fun c => c.userID == u1.userID) = 1 := by
  rcases h : rs.usersInRoom.find? (fun u => u.userID == u1.userID) with _ | w
  · have hzero : rs.usersInRoom.countP (fun c => c.userID == u1.userID) = 0 := by
      rw [List.countP_eq_zero]
      intro a ha
      exact List.find?_eq_none.mp h a ha
    have hjoin1 : onUserJoin u1 rs = ({ rs with usersInRoom := rs.usersInRoom ++ [u1] }, false) := by
      simp only [onUserJoin, _findUser, h]
    have hfind2 : (rs.usersInRoom ++ [u1]).find? (fun u => u.userID == u2.userID) = some u1 := by
      rw [hid, List.find?_append, h]
      simp
    have hjoin2 : onUserJoin u2 { rs with usersInRoom := rs.usersInRoom ++ [u1] } =
        ({ rs with usersInRoom := rs.usersInRoom ++ [u1] }, true) := by
      simp only [onUserJoin, _findUser]
      rw [hfind2]
    rw [hjoin1]
    simp only [hjoin2]
    refine ⟨trivial, trivial, ?_⟩
    simp [List.countP_append, hzero, List.countP_cons]
  · have hpos : 0 < rs.usersInRoom.countP (fun c => c.userID == u1.userID) := by
      rw [List.countP_pos_iff]
      refine ⟨w, List.mem_of_find?_eq_some h, ?_⟩
      simpa using List.find?_some h
    have hjoin1 : onUserJoin u1 rs = (rs, true) := by
      simp only [onUserJoin, _findUser, h]
    have hfind2 : rs.usersInRoom.find? (fun u => u.userID == u2.userID) = some w := by
      rw [hid]
      exact h
    have hjoin2 : onUserJoin u2 rs = (rs, true) := by
      simp only [onUserJoin, _findUser]
      rw [hfind2]
    rw [hjoin1]
    simp only [hjoin2]
    exact ⟨trivial, trivial, by omega⟩

/-- Evaluation of `userJoin_duplicate_ignored` from the empty room state. -/
theorem userJoin_duplicate_ignored_witness :
    (onUserJoin ⟨1, "a"⟩ (onUserJoin ⟨1, "a"⟩ ⟨[], [], [], []⟩).1).1
        = (onUserJoin ⟨1, "a"⟩ (⟨[], [], [], []⟩ : RoomState)).1
    ∧ (onUserJoin ⟨1, "a"⟩ (onUserJoin ⟨1, "a"⟩ ⟨[], [], [], []⟩).1).2 = true :=
  ⟨(userJoin_duplicate_ignored ⟨[], [], [], []⟩ ⟨1, "a"⟩ ⟨1, "a"⟩ rfl (by decide)).1,
   (userJoin_duplicate_ignored ⟨[], [], [], []⟩ ⟨1, "a"⟩ ⟨1, "a"⟩ rfl (by decide)).2.1⟩

/-! ## The advance translator and the dispatcher -/

/-- C6: when a raw advance event lacks the current performer or the media
sub-object, the translator returns `null` without throwing, and the event
dispatcher then invokes zero registered callbacks and leaves the shared
state unchanged. -/
theorem advance_translator_null_suppresses {St : Type} (dateParse : String → Int)
    (event : RawAdvanceEvent) (handlers : List (AdvanceEvent → St → St)) (st : St)
    (h : event.currentDJ = none ∨ event.media = none) :
    translateAdvanceEvent dateParse event = none
    ∧ _createEventDispatcher (translateAdvanceEvent dateParse) handlers event st = (st, 0) := by
  have ht : translateAdvanceEvent dateParse event = none := by
    unfold translateAdvanceEvent
    rcases hdj : event.currentDJ with _ | dj <;> rcases hm : event.media with _ | m
    · rfl
    · rfl
    · rfl
    · rcases h with h | h <;> simp_all
  exact ⟨ht, by simp [_createEventDispatcher, ht]⟩

/-- Evaluation of `advance_translator_null_suppresses` at a raw advance
event with no current performer, dispatched to one registered counting
callback. -/
theorem advance_translator_null_suppresses_witness :
    translateAdvanceEvent (fun _ => 0) ⟨none, some ⟨"a", "c", 1, "t"⟩, "", [], none⟩ = none
    ∧ _createEventDispatcher (translateAdvanceEvent (fun _ => 0))
        [fun _ (n : Nat) => n + 1] ⟨none, some ⟨"a", "c", 1, "t"⟩, "", [], none⟩ 0 = (0, 0) :=
  advance_translator_null_suppresses (fun _ => 0) ⟨none, some ⟨"a", "c", 1, "t"⟩, "", [], none⟩
    [fun _ (n : Nat) => n + 1] 0 (Or.inl rfl)

/-! ## The chat-deletion cascade -/

theorem cascadeDelete_eq_takeWhile_dropWhile (uid m now : Nat) (l : List ChatEntry) :
    cascadeDelete uid m now l =
      (l.takeWhile (sameUserNotDeleted uid)).map (markDeleted m now)
        ++ l.dropWhile (sameUserNotDeleted uid) := by
  induction l with
  | nil => rfl
  | cons c rest ih =>
      cases h : sameUserNotDeleted uid c
      · simp [cascadeDelete, List.takeWhile_cons, List.dropWhile_cons, h]
      · simp [cascadeDelete, List.takeWhile_cons, List.dropWhile_cons, h, ih]

theorem onChatDelete_no_match (ev : ChatDeleteEvent) (now : Nat) :
    ∀ l : List ChatEntry, (∀ c ∈ l, c.chatID ≠ ev.chatID) → onChatDelete ev now l = l := by
  intro l
  induction l with
  | nil => intro _; rfl
  | cons c rest ih =>
      intro h
      have hc : (c.chatID == ev.chatID) = false := by
        simp only [beq_eq_false_iff_ne, ne_eq]
        exact h c (List.mem_cons_self c rest)
      simp [onChatDelete, hc, ih (fun d hd => h d (List.mem_cons_of_mem c hd))]

/-- C1 (amended): when the event's chatID matches entry `x` (and no earlier
entry), the handler rebuilds the history as: the entries before `x`
unchanged, `x` soft-deleted, then the maximal contiguous run of
currently-non-deleted entries from `x`'s userID that immediately follow `x`
in the newest-first array (i.e. the immediately older messages) soft-deleted
— the cascade stops at the first entry that is from a different user or
already deleted — and every entry from the stopping point on unchanged. An
event whose chatID matches no entry leaves the history unchanged. -/
theorem chatDelete_cascade_characterization (ev : ChatDeleteEvent) (now : Nat)
    (pre : List ChatEntry) (x : ChatEntry) (rest : List ChatEntry)
    (hpre : ∀ c ∈ pre, c.chatID ≠ ev.chatID) (hx : x.chatID = ev.chatID) :
    onChatDelete ev now (pre ++ x :: rest) =
      pre ++ markDeleted ev.modUserID now x ::
        ((rest.takeWhile (sameUserNotDeleted x.userID)).map (markDeleted ev.modUserID now)
          ++ rest.dropWhile (sameUserNotDeleted x.userID))
    ∧ ∀ l : List ChatEntry, (∀ c ∈ l, c.chatID ≠ ev.chatID) → onChatDelete ev now l = l := by
  have main : ∀ p : List ChatEntry, (∀ c ∈ p, c.chatID ≠ ev.chatID) →
      onChatDelete ev now (p ++ x :: rest) =
        p ++ markDeleted ev.modUserID now x ::
          ((rest.takeWhile (sameUserNotDeleted x.userID)).map (markDeleted ev.modUserID now)
            ++ rest.dropWhile (sameUserNotDeleted x.userID)) := by
    intro p
    induction p with
    | nil =>
        intro _
        have hxx : (x.chatID == ev.chatID) = true := by simp [hx]
        simp [onChatDelete, hxx, cascadeDelete_eq_takeWhile_dropWhile]
    | cons q p ih =>
        intro h
        have hq : (q.chatID == ev.chatID) = false := by
          simp only [beq_eq_false_iff_ne, ne_eq]
          exact h q (List.mem_cons_self q p)
        simp only [List.cons_append, onChatDelete, hq, Bool.false_eq_true, if_false]
        exact congrArg (fun t => q :: t) (ih (fun c hc => h c (List.mem_cons_of_mem q hc)))
  exact ⟨main pre hpre, onChatDelete_no_match ev now⟩

/-- Evaluation of `chatDelete_cascade_characterization` at the history built
by chat events 1,2,3 from user 7, then 4 from user 8, then 5 from user 7
(newest-first), with chatID 2 deleted: entries 2 and 1 end up soft-deleted. -/
theorem chatDelete_cascade_characterization_witness :
    onChatDelete ⟨2, 9⟩ 5
        ([⟨5, 7, false, none, none⟩, ⟨4, 8, false, none, none⟩, ⟨3, 7, false, none, none⟩]
          ++ ⟨2, 7, false, none, none⟩ :: [⟨1, 7, false, none, none⟩]) =
      [⟨5, 7, false, none, none⟩, ⟨4, 8, false, none, none⟩, ⟨3, 7, false, none, none⟩]
        ++ markDeleted 9 5 ⟨2, 7, false, none, none⟩ ::
          (([⟨1, 7, false, none, none⟩].takeWhile (sameUserNotDeleted 7)).map (markDeleted 9 5)
            ++ [⟨1, 7, false, none, none⟩].dropWhile (sameUserNotDeleted 7)) :=
  (chatDelete_cascade_characterization ⟨2, 9⟩ 5
    [⟨5, 7, false, none, none⟩, ⟨4, 8, false, none, none⟩, ⟨3, 7, false, none, none⟩]
    ⟨2, 7, false, none, none⟩ [⟨1, 7, false, none, none⟩] (by decide) rfl).1

/-- C1 counterexample. First conjunct: on the history of the specification's
own scenario — user 7 chats 1,2,3, user 8 chats 4, user 7 chats 5, stored
newest-first — deleting chatID 2 soft-deletes entries 2 and 1, not 2 and 3
as the claim asserts (the cascade walks toward older messages, "subsequent"
in array position, not in time). Second conjunct: the handler also differs
from the claim's cascade rule (`specOnChatDelete`, stopping only at a
different user) on a history holding an already-deleted entry between two
live same-user entries. -/
theorem chatDelete_claim_counterexample :
    ((onChatDelete ⟨2, 9⟩ 5
        [⟨5, 7, false, none, none⟩, ⟨4, 8, false, none, none⟩, ⟨3, 7, false, none, none⟩,
         ⟨2, 7, false, none, none⟩, ⟨1, 7, false, none, none⟩]).map
          (fun c => (c.chatID, c.isDeleted))
        = [(5, false), (4, false), (3, false), (2, true), (1, true)])
    ∧ onChatDelete ⟨1, 9⟩ 5
        [⟨1, 7, false, none, none⟩, ⟨2, 7, true, some 9, some 0⟩, ⟨3, 7, false, none, none⟩]
      ≠ specOnChatDelete ⟨1, 9⟩ 5
        [⟨1, 7, false, none, none⟩, ⟨2, 7, true, some 9, some 0⟩, ⟨3, 7, false, none, none⟩] := by
  decide

/-! ## The command router -/

theorem mem_enumFrom_zero {α : Type} {cs : List α} {k : Nat} {a : α} :
    (k, a) ∈ cs.enumFrom 0 ↔ cs[k]? = some a := by
  constructor
  · intro h
    obtain ⟨-, hk, ha⟩ := List.mem_enumFrom h
    rw [List.getElem?_eq_getElem (by omega : k < cs.length), ha]
    simp
  · intro h
    rw [List.mem_iff_getElem?]
    refine ⟨k, ?_⟩
    rw [List.getElem?_enumFrom, h]
    simp

theorem pairwise_fst_lt_enumFrom {α : Type} (cs : List α) :
    ∀ n : Nat, (cs.enumFrom n).Pairwise (fun p q => p.1 < q.1) := by
  induction cs with
  | nil => intro n; simp
  | cons c rest ih =>
      intro n
      rw [List.enumFrom_cons]
      refine List.Pairwise.cons ?_ (ih (n + 1))
      rintro ⟨i, x⟩ hq
      have := (List.mem_enumFrom hq).1
      simpa using by omega

theorem commandOutcome_index (cn : String) (role : UserRole) (p : Nat × Command)
    (inv : CommandInvocation) (h : commandOutcome cn role p = some inv) :
    inv.index = p.1 := by
  unfold commandOutcome at h
  split at h
  · split at h
    · split at h
      · split at h
        · injection h with h
          subst h
          rfl
        · exact absurd h (by simp)
      · injection h with h
        subst h
        rfl
    · injection h with h
      subst h
      rfl
  · exact absurd h (by simp)

theorem commandOutcome_eq_handler_iff (cn : String) (role : UserRole) (k : Nat)
    (cmd : Command) (j : Nat) :
    commandOutcome cn role (k, cmd) = some (CommandInvocation.handler j) ↔
      (k = j ∧ cmdMatches cn cmd = true ∧ rolePermits role cmd = true) := by
  unfold commandOutcome cmdMatches rolePermits
  by_cases hm : cn ∈ cmd.triggers
  · rcases hmin : cmd.minimumRole with _ | minRole
    · simp [hm, hmin]
    · by_cases hl : role.level < minRole.level
      · by_cases hiph : cmd.hasInsufficientPermissionsHandler = true <;>
          simp [hm, hmin, hl, hiph]
      · simp [hm, hmin, hl]
  · simp [hm]

theorem commandOutcome_eq_insufficient_iff (cn : String) (role : UserRole) (k : Nat)
    (cmd : Command) (j : Nat) :
    commandOutcome cn role (k, cmd) = some (CommandInvocation.insufficientPermissions j) ↔
      (k = j ∧ cmdMatches cn cmd = true ∧ rolePermits role cmd = false
        ∧ cmd.hasInsufficientPermissionsHandler = true) := by
  unfold commandOutcome cmdMatches rolePermits
  by_cases hm : cn ∈ cmd.triggers
  · rcases hmin : cmd.minimumRole with _ | minRole
    · simp [hm, hmin]
    · by_cases hl : role.level < minRole.level
      · by_cases hiph : cmd.hasInsufficientPermissionsHandler = true <;>
          simp [hm, hmin, hl, hiph]
      · simp [hm, hmin, hl]
  · simp [hm]

theorem runCommands_eq_filterMap (cn : String) (role : UserRole) (cs : List Command) :
    ∀ i : Nat, runCommands cn role i cs = (cs.enumFrom i).filterMap (commandOutcome cn role) := by
  induction cs with
  | nil => intro i; rfl
  | cons cmd rest ih =>
      intro i
      rw [List.enumFrom_cons, List.filterMap_cons]
      by_cases hm : cn ∈ cmd.triggers
      · rcases hmin : cmd.minimumRole with _ | minRole
        · simp [runCommands, commandOutcome, hm, hmin, ih]
        · by_cases hl : role.level < minRole.level
          · by_cases hiph : cmd.hasInsufficientPermissionsHandler = true <;>
              simp [runCommands, commandOutcome, hm, hmin, hl, hiph, ih]
          · simp [runCommands, commandOutcome, hm, hmin, hl, ih]
      · simp [runCommands, commandOutcome, hm, ih]

/-- C8: for every chat-command event and registered command list, the command
handler scans the whole list (not first-match-wins): the main handler of the
command at registration index `i` is invoked exactly when its trigger set
contains the (optionally lower-cased) keyword and its minimum role does not
exceed the user's role rank; its insufficient-permissions callback is invoked
exactly when the trigger matches, the role is insufficient, and the callback
is supplied; and the invocations occur in registration order. -/
theorem command_router_fires_all_matching (areCommandsCaseSensitive : Bool)
    (cs : List Command) (ev : CommandEvent) (i : Nat) (hi : i < cs.length) :
    (CommandInvocation.handler i ∈ _createCommandHandler areCommandsCaseSensitive cs ev ↔
      (cmdMatches (if !areCommandsCaseSensitive then ev.command.toLower else ev.command)
          cs[i] = true
        ∧ rolePermits ev.userRole cs[i] = true))
    ∧ (CommandInvocation.insufficientPermissions i
          ∈ _createCommandHandler areCommandsCaseSensitive cs ev ↔
      (cmdMatches (if !areCommandsCaseSensitive then ev.command.toLower else ev.command)
          cs[i] = true
        ∧ rolePermits ev.userRole cs[i] = false
        ∧ cs[i].hasInsufficientPermissionsHandler = true))
    ∧ List.Pairwise (fun a b => a.index < b.index)
        (_createCommandHandler areCommandsCaseSensitive cs ev) := by
  have heq : _createCommandHandler areCommandsCaseSensitive cs ev =
      (cs.enumFrom 0).filterMap
        (commandOutcome (if !areCommandsCaseSensitive then ev.command.toLower else ev.command)
          ev.userRole) := by
    simp only [_createCommandHandler]
    rw [runCommands_eq_filterMap]
  rw [heq]
  refine ⟨?_, ?_, ?_⟩
  · rw [List.mem_filterMap]
    constructor
    · rintro ⟨⟨k, cmd⟩, hmem, hout⟩
      obtain ⟨rfl, hm, hp⟩ := (commandOutcome_eq_handler_iff _ _ _ _ _).mp hout
      have hk : cs[k]? = some cmd := mem_enumFrom_zero.mp hmem
      rw [List.getElem?_eq_getElem hi] at hk
      injection hk with hk
      rw [hk]
      exact ⟨hm, hp⟩
    · rintro ⟨hm, hp⟩
      exact ⟨(i, cs[i]), mem_enumFrom_zero.mpr (List.getElem?_eq_getElem hi),
        (commandOutcome_eq_handler_iff _ _ _ _ _).mpr ⟨rfl, hm, hp⟩⟩
  · rw [List.mem_filterMap]
    constructor
    · rintro ⟨⟨k, cmd⟩, hmem, hout⟩
      obtain ⟨rfl, hm, hp, hiph⟩ := (commandOutcome_eq_insufficient_iff _ _ _ _ _).mp hout
      have hk : cs[k]? = some cmd := mem_enumFrom_zero.mp hmem
      rw [List.getElem?_eq_getElem hi] at hk
      injection hk with hk
      rw [hk]
      exact ⟨hm, hp, hiph⟩
    · rintro ⟨hm, hp, hiph⟩
      exact ⟨(i, cs[i]), mem_enumFrom_zero.mpr (List.getElem?_eq_getElem hi),
        (commandOutcome_eq_insufficient_iff _ _ _ _ _).mpr ⟨rfl, hm, hp, hiph⟩⟩
  · rw [List.pairwise_filterMap]
    refine (pairwise_fst_lt_enumFrom cs 0).imp ?_
    intro p q hpq c hc d hd
    rw [commandOutcome_index _ _ _ _ (Option.mem_def.mp hc),
      commandOutcome_index _ _ _ _ (Option.mem_def.mp hd)]
    exact hpq

/-- Evaluation of `command_router_fires_all_matching`: two registered
commands share the trigger `"foo"`, and the second one's handler still fires
for one invocation of `!foo`. -/
theorem command_router_fires_all_matching_witness :
    CommandInvocation.handler 1 ∈ _createCommandHandler true
      [⟨["foo"], none, false⟩, ⟨["foo"], none, true⟩] ⟨"foo", UserRole.NONE⟩ := by
  have h := command_router_fires_all_matching true
    [⟨["foo"], none, false⟩, ⟨["foo"], none, true⟩] ⟨"foo", UserRole.NONE⟩ 1 (by decide)
  exact h.1.mpr (by decide)

/-! ## Wait-list uniqueness -/

theorem removeUserCell_sublist {uid : Nat} :
    ∀ {l l2 : List WaitListCell}, removeUserCell uid l = .ok l2 → l2.Sublist l := by
  intro l
  induction l with
  | nil =>
      intro l2 h
      simp only [removeUserCell] at h
      injection h with h
      subst h
      exact List.Sublist.refl []
  | cons c rest ih =>
      intro l2 h
      cases c with
      | none => simp [removeUserCell] at h
      | some u =>
          simp only [removeUserCell] at h
          by_cases huid : (u.userID == uid) = true
          · rw [if_pos huid] at h
            injection h with h
            subst h
            exact List.sublist_cons_self (some u) rest
          · rw [if_neg huid] at h
            cases hrec : removeUserCell uid rest with
            | error e2 => rw [hrec] at h; simp [Except.map] at h
            | ok l3 =>
                rw [hrec] at h
                simp only [Except.map] at h
                injection h with h
                subst h
                exact (ih hrec).cons₂ (some u)

/-- C7 counterexample: startup synchronization with a current performer whom
the upstream wait-list snapshot also contains — the situation the spec's own
startup scenario describes — builds a wait list in which that userID appears
twice, so uniqueness does not hold at every reachable state. -/
theorem waitlist_unique_counterexample :
    ¬ UniqueIds (startupWaitList (some ⟨2, "b"⟩) [⟨2, "b"⟩]) := by
  intro h
  have h2 := h 2
  have hc : countId (startupWaitList (some ⟨2, "b"⟩) [⟨2, "b"⟩]) 2 = 2 := by decide
  omega

/-- C7 (amended): provided every DJ list handed over by upstream is
duplicate-free — the startup snapshot with the current performer prepended,
and the `waitlistedDJs` array of every advance event — each userID appears at
most once among the user entries of `usersInWaitList`: the startup wait list
satisfies uniqueness, and every event step that completes without throwing
preserves it (`djListUpdate` replaces the field with the translated
`{ userIDs }` object, which holds no user entries; `modRemoveDJ` throws
before mutating; `userLeave` only removes an entry). Hence uniqueness holds
at every reachable state. -/
theorem waitlist_unique_amended :
    (∀ (dj : Option User) (wl : List User),
        CellsUnique (dj :: wl.map some) → UniqueIds (startupWaitList dj wl))
    ∧ ∀ (e : WaitListEvent) (w w2 : WaitListVal),
        UniqueIds w →
        (∀ djs, e = WaitListEvent.advance djs → CellsUnique djs) →
        stepWaitList e w = Except.ok w2 → UniqueIds w2 := by
  constructor
  · intro dj wl h uid
    exact h uid
  · intro e w w2 hw hadv hstep uid
    cases e with
    | advance djs =>
        simp only [stepWaitList] at hstep
        injection hstep with hstep
        subst hstep
        exact hadv djs rfl uid
    | djListUpdate ids =>
        simp only [stepWaitList] at hstep
        injection hstep with hstep
        subst hstep
        simp [countId]
    | modRemoveDJ name => simp [stepWaitList] at hstep
    | userLeave uid2 =>
        cases w with
        | users l =>
            simp only [stepWaitList] at hstep
            cases hrem : removeUserCell uid2 l with
            | error e2 => rw [hrem] at hstep; simp [Except.map] at hstep
            | ok l2 =>
                rw [hrem] at hstep
                simp only [Except.map] at hstep
                injection hstep with hstep
                subst hstep
                exact le_trans
                  (((removeUserCell_sublist hrem).countP_le _)) (hw uid)
        | updateObject ids =>
            simp only [stepWaitList] at hstep
            injection hstep with hstep
            subst hstep
            simp [countId]

/-- Evaluation of `waitlist_unique_amended`: the startup wait list built from
a duplicate-free snapshot is unique, and a `userLeave` step from a singleton
wait list preserves uniqueness. -/
theorem waitlist_unique_amended_witness :
    UniqueIds (startupWaitList none []) ∧ UniqueIds (WaitListVal.users []) :=
  ⟨waitlist_unique_amended.1 none [] (fun uid => by simp [List.countP_cons]),
   waitlist_unique_amended.2 (.userLeave 1) (.users [some ⟨1, "a"⟩]) (.users [])
     (fun uid => by
       simp only [countId, List.countP_cons, List.countP_nil]
       split <;> simp)
     (fun djs hdjs => by cases hdjs)
     rfl⟩

end PlugBotBase
